import Mathlib

/-!
Shallow embedding of the embedding-store / similarity-search service
(`ai-service`): the FAISS-backed vector index (`app/core/models.py`), the
ranking and filter utilities (`app/api/recommendations.py`) and the
cosine-similarity pipeline (`app/api/similar_jobs.py`).

Vector entries are modelled as exact rationals (the source computes with
floating point; all claims below are about structure, guards and exact
branch behaviour, not rounding error).  Steps of the source that divide by
an L2 norm (an irrational square root in general) are modelled by passing
the positive scale factor `1 / norm` explicitly, constrained by a
hypothesis where its value matters.
-/

namespace AiService

/-- A vector is a list of rational coordinates. -/
abbrev Vec := List ℚ

/-- Inner product of two vectors (`np.dot` / the FAISS inner-product
metric); trailing coordinates of the longer vector are ignored, as both
sources only apply it to equal-length vectors. -/
def dotQ : Vec → Vec → ℚ
  | [], _ => 0
  | _ :: _, [] => 0
  | a :: as, b :: bs => a * b + dotQ as bs

/-- Squared L2 norm of a vector. -/
def sqnormQ (v : Vec) : ℚ := dotQ v v

/-- Scaling a vector by a factor `c`; with `c = 1 / ‖v‖` this is L2
normalization (`faiss.normalize_L2` row step). -/
def normalizeWith (c : ℚ) (v : Vec) : Vec := v.map (fun x => c * x)

/-- Generic "descending by key" comparison used to model Python's stable
`list.sort(key=..., reverse=True)`. -/
def keyDesc {α : Type} (f : α → ℚ) : α → α → Prop := fun a b => f b ≤ f a

instance {α : Type} (f : α → ℚ) : DecidableRel (keyDesc f) := fun a b => by
  unfold keyDesc; infer_instance

instance {α : Type} (f : α → ℚ) : IsTotal α (keyDesc f) :=
  ⟨fun a b => le_total (f b) (f a)⟩

instance {α : Type} (f : α → ℚ) : IsTrans α (keyDesc f) :=
  ⟨fun _ _ _ h h' => le_trans h' h⟩

/-- Bool test: `sub` occurs as a contiguous substring of `s` (model of
Python's `sub in s` on strings, at the level of character lists). -/
def containsSub (s sub : List Char) : Bool :=
  (List.range (s.length + 1)).any (fun i => sub.isPrefixOf (List.drop i s))

/-- Python's `str.lower()` (all repository data is ASCII, where
`Char.toLower` agrees with it). -/
def toLowerStr (s : String) : String := ⟨s.data.map Char.toLower⟩

/-- Helper for `splitWords`: walk the characters, collecting the current
word in `acc` (reversed) and emitting it at each space run or at the
end. -/
def splitWordsAux : List Char → List Char → List String
  | [], acc => if acc = [] then [] else [⟨acc.reverse⟩]
  | c :: cs, acc =>
    if c = ' ' then
      (if acc = [] then splitWordsAux cs []
       else (⟨acc.reverse⟩ : String) :: splitWordsAux cs [])
    else splitWordsAux cs (c :: acc)

/-- Python's `str.split()` with no separator argument: the non-empty
maximal runs between whitespace (the repository's strings use only
ordinary spaces). -/
def splitWords (s : String) : List String := splitWordsAux s.data []

/-! ## Data model of the API layer -/

/-- One entry of the mock job databases (`MOCK_JOBS` in
`recommendations.py`, `MOCK_JOBS_DB` in `similar_jobs.py`); every mock
entry carries all of these fields. -/
structure JobListing where
  id : String
  title : String
  company : String
  requiredSkills : List String
  location : String
  jobType : String
  description : String
deriving DecidableEq, Repr

/-- `JobRecommendation` pydantic model of `recommendations.py`. -/
structure JobRecommendation where
  jobId : String
  title : String
  company : String
  fitScore : ℚ
  reason : String
  location : Option String
  jobType : Option String
  skills : List String
deriving DecidableEq, Repr

/-- `SimilarJob` pydantic model of `similar_jobs.py`. -/
structure SimilarJob where
  jobId : String
  title : String
  company : String
  similarityScore : ℚ
  reason : String
  location : Option String
  jobType : Option String
deriving DecidableEq, Repr

/-! ## Ranking utilities (`app/api/recommendations.py`) -/

/-- The skill-match fraction computed inline in
`generate_mock_recommendations` (lines 149-152), named `score_fit` as in
the design spec: `len(candidate ∩ required) / len(required)` when the
required set is non-empty (Python truthiness of a set), else `0.0`. -/
def score_fit (cand req : Finset String) : ℚ :=
  if req = (∅ : Finset String) then 0
  else ((cand ∩ req).card : ℚ) / (req.card : ℚ)

/-- Python's `round(x, 1)` on the exact rational value (the source rounds
an IEEE double; half-to-even artifacts of the binary representation are
not modelled — no claim below depends on a half-way case). -/
def pyRound1 (x : ℚ) : ℚ := (round (x * 10) : ℤ) / 10

/-- The `reason` string chosen from the unrounded fit score
(`generate_mock_recommendations`, lines 158-165). -/
def fitReason (fit : ℚ) : String :=
  if 80 ≤ fit then "Excellent skill match"
  else if 60 ≤ fit then "Good skill match"
  else if 40 ≤ fit then "Partial skill match"
  else "Limited skill match"

/-- Body of the `for job in MOCK_JOBS[:limit]` loop of
`generate_mock_recommendations`: score one job against the student's
skill set and build the `JobRecommendation`. -/
def mkRecommendation (skills : Finset String) (j : JobListing) : JobRecommendation :=
  let skillMatch := score_fit skills j.requiredSkills.toFinset
  let fit := min 100 (skillMatch * 100)
  { jobId := j.id
    title := j.title
    company := j.company
    fitScore := pyRound1 fit
    reason := fitReason fit
    location := some j.location
    jobType := some j.jobType
    skills := j.requiredSkills }

/-- `generate_mock_recommendations(profile, limit)` (lines 138-181):
truncate the job list to `limit` entries, score each, then stable-sort
descending by `fitScore` (Python's `list.sort` is stable; a stable sort is
extensionally unique, so it is embedded as insertion sort). -/
def generate_mock_recommendations (jobs : List JobListing)
    (skills : Finset String) (limit : ℕ) : List JobRecommendation :=
  List.insertionSort (keyDesc JobRecommendation.fitScore)
    ((jobs.take limit).map (mkRecommendation skills))

/-- The `filters` dict of `apply_filters`: each supported key is either
absent or carries a value. -/
structure RecFilters where
  jobType : Option String
  location : Option String
  minFitScore : Option ℚ
deriving Repr

/-- The location predicate of `apply_filters` (line 197):
`r.location and location in r.location.lower()`, where the filter value
has already been lowercased; Python truthiness makes `None` and the empty
string fail the first conjunct. -/
def locationKeeps (loc : String) (r : JobRecommendation) : Bool :=
  match r.location with
  | none => false
  | some s => decide (s ≠ "") && containsSub (toLowerStr s).toList loc.toList

/-- `apply_filters(recommendations, filters)` (lines 183-204): three
sequential list comprehensions, one per supplied key. -/
def apply_filters (recs : List JobRecommendation) (f : RecFilters) :
    List JobRecommendation :=
  let f1 := match f.jobType with
    | none => recs
    | some jt => recs.filter (fun r => decide (r.jobType = some jt))
  let f2 := match f.location with
    | none => f1
    | some loc => f1.filter (locationKeeps (toLowerStr loc))
  match f.minFitScore with
  | none => f2
  | some m => f2.filter (fun r => decide (m ≤ r.fitScore))

/-- Spec-side single-pass predicate for the refinement claim about
`apply_filters`: an item survives iff it satisfies every supplied
predicate (exact `jobType` match, case-insensitive substring match on a
present non-empty location, `fitScore` at or above the threshold). -/
def passesFilters (f : RecFilters) (r : JobRecommendation) : Bool :=
  (match f.jobType with
    | none => true
    | some jt => decide (r.jobType = some jt)) &&
  (match f.location with
    | none => true
    | some loc => locationKeeps (toLowerStr loc) r) &&
  (match f.minFitScore with
    | none => true
    | some m => decide (m ≤ r.fitScore))

/-! ## Cosine similarity (`app/api/similar_jobs.py`) -/

/-- `calculate_cosine_similarity(embedding1, embedding2)` (lines 164-181):
compute both L2 norms, return `0.0` if either is zero, else the inner
product divided by the product of the norms.  The exact value lives in
`ℝ` because the norms are square roots. -/
noncomputable def calculate_cosine_similarity (e1 e2 : Vec) : ℝ :=
  if Real.sqrt ((sqnormQ e1 : ℚ) : ℝ) = 0 ∨ Real.sqrt ((sqnormQ e2 : ℚ) : ℝ) = 0 then 0
  else ((dotQ e1 e2 : ℚ) : ℝ) /
    (Real.sqrt ((sqnormQ e1 : ℚ) : ℝ) * Real.sqrt ((sqnormQ e2 : ℚ) : ℝ))

/-! ## Similar-jobs lookup (`app/api/similar_jobs.py`) -/

/-- Python's `s.lower().split()` turned into the set of non-empty
whitespace-separated words. -/
def titleWords (s : String) : Finset String :=
  (splitWords (toLowerStr s)).toFinset

/-- `determine_similarity_reason(reference_job, job, similarity_score)`
(lines 183-219): collect reason fragments from skill overlap, job-type
equality, title-word overlap and the score range, joined with `", "`. -/
def determine_similarity_reason (ref j : JobListing) (score : ℚ) : String :=
  let skillOverlap := (ref.requiredSkills.toFinset ∩ j.requiredSkills.toFinset).card
  let titleOverlap := (titleWords ref.title ∩ titleWords j.title).card
  let reasons :=
    (if 0 < skillOverlap then
      ["Shared " ++ toString skillOverlap ++ " skills"] else []) ++
    (if ref.jobType = j.jobType then ["Same job type"] else []) ++
    (if 0 < titleOverlap then
      ["Similar title (" ++ toString titleOverlap ++ " common words)"] else []) ++
    [if mkRat 8 10 ≤ score then "Very high similarity"
     else if mkRat 6 10 ≤ score then "High similarity"
     else if mkRat 4 10 ≤ score then "Moderate similarity"
     else "Low similarity"]
  if reasons = [] then "Basic similarity" else String.intercalate ", " reasons

/-- The `SimilarJob` built for one non-reference database entry
(`find_similar_jobs_by_embedding` loop body, lines 144-157). -/
def mkSimilarJob (ref j : JobListing) (score : ℚ) : SimilarJob :=
  { jobId := j.id
    title := j.title
    company := j.company
    similarityScore := score
    reason := determine_similarity_reason ref j score
    location := some j.location
    jobType := some j.jobType }

/-- `find_similar_jobs_by_embedding(reference_job, reference_embedding,
limit)` (lines 126-162).  The numeric pipeline for one candidate job —
`generate_embeddings([job_text])` followed by
`round(calculate_cosine_similarity(reference_embedding, job_embedding), 3)`
— is abstracted as the parameter `score : JobListing → Option ℚ`
(`none` models the embedding call returning `None`, which the loop skips
with `continue`; the exact cosine value is irrational in general and no
claim about this function depends on it).  Entries are built in database
order, stable-sorted descending by score, and truncated to `limit`. -/
def find_similar_jobs_by_embedding (db : List JobListing) (ref : JobListing)
    (score : JobListing → Option ℚ) (limit : ℕ) : List SimilarJob :=
  let entries := db.filterMap (fun j =>
    if j.id = ref.id then none
    else (score j).map (mkSimilarJob ref j))
  (List.insertionSort (keyDesc SimilarJob.similarityScore) entries).take limit

/-! ## Embedding provider (`app/core/models.py`, lines 108-119) -/

/-- `generate_embeddings(texts)`: `None` when the model is unavailable
(`get_embedding_model()` returned `None`) or when `encode` raises
(`encodeOk = false`); otherwise one vector per text, in order, via the
model's encoding function `m`. -/
def generate_embeddings (model : Option (String → Vec)) (encodeOk : Bool)
    (texts : List String) : Option (List Vec) :=
  match model with
  | none => none
  | some m => if encodeOk then some (texts.map m) else none

/-! ## FAISS index (`app/core/models.py`, lines 74-159)

The index itself is `faiss.IndexFlatIP`, an exact brute-force
inner-product index; its documented search semantics are embedded here:
scores of all stored vectors against the query, the `k` best returned in
descending score order, and when fewer than `k` vectors are stored the
result is padded to length `k` with the sentinel label `-1` (modelled as
slot `-1` with score `none`). -/

/-- In-memory FAISS index state: established dimension and stored
(already normalized) vectors, slot `i` = position `i`. -/
structure FaissState where
  dim : ℕ
  vecs : List Vec
deriving DecidableEq, Repr

/-- Descending-by-score, ties-by-slot order on `(slot, score)` pairs used
by the exact top-k selection. -/
def rankDesc : ℕ × ℚ → ℕ × ℚ → Prop := fun a b =>
  b.2 < a.2 ∨ (a.2 = b.2 ∧ a.1 ≤ b.1)

instance : DecidableRel rankDesc := fun a b => by
  unfold rankDesc; infer_instance

instance : IsTotal (ℕ × ℚ) rankDesc :=
  ⟨fun a b => by
    unfold rankDesc
    rcases lt_trichotomy a.2 b.2 with h | h | h
    · exact Or.inr (Or.inl h)
    · rcases le_total a.1 b.1 with h' | h'
      · exact Or.inl (Or.inr ⟨h, h'⟩)
      · exact Or.inr (Or.inr ⟨h.symm, h'⟩)
    · exact Or.inl (Or.inl h)⟩

instance : IsTrans (ℕ × ℚ) rankDesc :=
  ⟨fun a b c hab hbc => by
    unfold rankDesc at *
    rcases hab with h1 | ⟨e1, l1⟩
    · rcases hbc with h2 | ⟨e2, l2⟩
      · exact Or.inl (h2.trans h1)
      · exact Or.inl (e2 ▸ h1)
    · rcases hbc with h2 | ⟨e2, l2⟩
      · exact Or.inl (e1 ▸ h2)
      · exact Or.inr ⟨e1.trans e2, l1.trans l2⟩⟩

/-- `faiss.IndexFlatIP.search` on one query: score every stored vector by
inner product with the query, order descending (exact search returns the
best first), keep `k`, pad to length `k` with the `-1` sentinel. -/
def faissTopK (xs : List Vec) (q : Vec) (k : ℕ) : List (Int × Option ℚ) :=
  let scored := (List.range xs.length).zip (xs.map (fun v => dotQ q v))
  let top := (List.insertionSort rankDesc scored).take k
  top.map (fun p => ((p.1 : Int), some p.2)) ++
    List.replicate (k - top.length) ((-1 : Int), (none : Option ℚ))

/-- `search_similar(query_embedding, k)` (lines 143-159): `none` when
`get_faiss_index()` returned `None` (the source then returns
`(None, None)`); `none` as well when the query's length differs from the
index's dimension — the FAISS wrapper's `search` asserts
`d == self.d`, and the bare `except` converts that to `(None, None)`.
Otherwise the query is L2-normalized in place and the index searched.
Normalization divides by the query's L2 norm — an irrational square root
in general — so the positive factor is passed explicitly as `c`; it
scales every inner product uniformly (and preserves the query's length,
so the dimension assert is equivalently stated on `q`). -/
def search_similar (idx : Option FaissState) (c : ℚ) (q : Vec) (k : ℕ) :
    Option (List (Int × Option ℚ)) :=
  match idx with
  | none => none
  | some st =>
    if q.length = st.dim then some (faissTopK st.vecs (normalizeWith c q) k)
    else none

/-- `add_to_faiss_index(embeddings)` (lines 121-141).  Parameters beyond
the source's arguments model its environment: `idx` is the
`get_faiss_index()` result (`none` → return `False`), `disk` the
persisted index file, `diskOk` whether `faiss.write_index` succeeds, and
`cs` the per-row normalization factors of `faiss.normalize_L2` (each
`1 / ‖row‖`, constrained by hypothesis where it matters; a zero row is
unchanged by any factor).  Returns the `True`/`False` result together
with the new in-memory index and the new on-disk state: a batch with a
row of the wrong dimension makes `faiss_index.add` raise, which the
source catches and converts to `False` with the index unchanged; after a
successful add, a failing `faiss.write_index` also yields `False`, but
the in-memory index already holds the appended rows while the disk file
does not. -/
def add_to_faiss_index (idx : Option FaissState) (disk : FaissState)
    (diskOk : Bool) (cs : List ℚ) (batch : List Vec) :
    Bool × Option FaissState × FaissState :=
  match idx with
  | none => (false, none, disk)
  | some mem =>
    if batch.all (fun v => v.length = mem.dim) then
      let normed := List.zipWith normalizeWith cs batch
      let mem' : FaissState := ⟨mem.dim, mem.vecs ++ normed⟩
      if diskOk then (true, some mem', mem') else (false, some mem', disk)
    else (false, some mem, disk)

/-! ## Concrete mock data (from the source's literals) -/

/-- `MOCK_JOBS` of `recommendations.py` (lines 30-67). -/
def mockJobs : List JobListing :=
  [⟨"job_1", "Software Developer Intern", "Tech Corp",
      ["javascript", "react", "node.js"], "Bangalore", "internship",
      "Full-stack development internship"⟩,
   ⟨"job_2", "Data Science Intern", "Data Analytics Inc",
      ["python", "machine learning", "pandas"], "Mumbai", "internship",
      "Machine learning and data analysis"⟩,
   ⟨"job_3", "Frontend Developer", "Web Solutions",
      ["javascript", "react", "css", "html"], "Delhi", "full-time",
      "Frontend development role"⟩,
   ⟨"job_4", "Backend Developer", "API Corp",
      ["python", "django", "postgresql", "aws"], "Hyderabad", "full-time",
      "Backend API development"⟩]

/-- The mock student skill set of `get_job_recommendations`
(`recommendations.py`, line 85). -/
def studentSkills : Finset String :=
  {"javascript", "react", "python", "node.js"}

/-- A four-item recommendation list containing two internships, used for
the filtering scenario of the design spec (built from the four
`MOCK_JOBS` entries as `generate_mock_recommendations` would shape
them). -/
def sampleRecs : List JobRecommendation :=
  [⟨"job_1", "Software Developer Intern", "Tech Corp", 100,
      "Excellent skill match", some "Bangalore", some "internship",
      ["javascript", "react", "node.js"]⟩,
   ⟨"job_2", "Data Science Intern", "Data Analytics Inc", mkRat 333 10,
      "Limited skill match", some "Mumbai", some "internship",
      ["python", "machine learning", "pandas"]⟩,
   ⟨"job_3", "Frontend Developer", "Web Solutions", 50,
      "Partial skill match", some "Delhi", some "full-time",
      ["javascript", "react", "css", "html"]⟩,
   ⟨"job_4", "Backend Developer", "API Corp", 25,
      "Limited skill match", some "Hyderabad", some "full-time",
      ["python", "django", "postgresql", "aws"]⟩]

/-! # Theorems -/

/-! ## Helper lemmas -/

theorem dotQ_map_mul (c d : ℚ) (v w : Vec) :
    dotQ (v.map (fun x => c * x)) (w.map (fun x => d * x)) = c * d * dotQ v w := by
  induction v generalizing w with
  | nil => simp [dotQ]
  | cons a as ih =>
    cases w with
    | nil => simp [dotQ]
    | cons b bs =>
      simp only [List.map_cons, dotQ, ih]
      ring

theorem sqnormQ_normalizeWith (c : ℚ) (v : Vec) :
    sqnormQ (normalizeWith c v) = c * c * sqnormQ v := by
  unfold sqnormQ normalizeWith
  exact dotQ_map_mul c c v v

/-! ## C6 — `score_fit` -/

/-- C6: for all candidate and required attribute sets, `score_fit C R`
equals `|C ∩ R| / |R|` when `R` is non-empty and `0` when `R` is empty,
lies in `[0, 1]`, and on the spec's scenario
`score_fit({python, react}, {python, django, aws})` evaluates to `1/3`. -/
theorem score_fit_spec (C R : Finset String) :
    (R.Nonempty → score_fit C R = ((C ∩ R).card : ℚ) / (R.card : ℚ)) ∧
    (R = ∅ → score_fit C R = 0) ∧
    0 ≤ score_fit C R ∧ score_fit C R ≤ 1 ∧
    score_fit {"python", "react"} {"python", "django", "aws"} = 1/3 := by
  have hex : score_fit {"python", "react"} {"python", "django", "aws"} = 1/3 := by
    unfold score_fit
    rw [if_neg (by decide)]
    rw [show (({"python", "react"} : Finset String) ∩ {"python", "django", "aws"}) =
        {"python"} from by decide]
    rw [show ({"python"} : Finset String).card = 1 from by decide]
    rw [show ({"python", "django", "aws"} : Finset String).card = 3 from by decide]
    norm_num
  refine ⟨?_, ?_, ?_, ?_, hex⟩
  · intro hR
    unfold score_fit
    rw [if_neg (Finset.nonempty_iff_ne_empty.mp hR)]
  · intro h
    unfold score_fit
    rw [if_pos h]
  · unfold score_fit
    split
    · exact le_refl 0
    · positivity
  · unfold score_fit
    split
    · norm_num
    · apply div_le_one_of_le₀
      · exact_mod_cast Finset.card_le_card Finset.inter_subset_right
      · positivity

/-- Witness for `score_fit_spec` at concrete inputs. -/
theorem score_fit_spec_witness :
    score_fit {"python"} {"python", "aws"} =
      ((({"python"} : Finset String) ∩ {"python", "aws"}).card : ℚ) /
        ((({"python", "aws"} : Finset String)).card : ℚ) ∧
    score_fit {"a"} (∅ : Finset String) = 0 :=
  ⟨(score_fit_spec {"python"} {"python", "aws"}).1 (by decide),
   (score_fit_spec {"a"} ∅).2.1 rfl⟩

/-! ## C8 — zero-norm guard in `calculate_cosine_similarity` -/

/-- C8: the cosine-similarity computation returns `0.0` whenever either
vector's L2 norm is zero (in particular, to or from a zero vector); in
the remaining case the denominator it divides by is provably nonzero, so
no division by zero arises. -/
theorem cosine_zero_norm_policy (e1 e2 : Vec) :
    ((Real.sqrt ((sqnormQ e1 : ℚ) : ℝ) = 0 ∨ Real.sqrt ((sqnormQ e2 : ℚ) : ℝ) = 0) →
      calculate_cosine_similarity e1 e2 = 0) ∧
    (sqnormQ e1 = 0 →
      calculate_cosine_similarity e1 e2 = 0 ∧ calculate_cosine_similarity e2 e1 = 0) ∧
    (¬ (Real.sqrt ((sqnormQ e1 : ℚ) : ℝ) = 0 ∨ Real.sqrt ((sqnormQ e2 : ℚ) : ℝ) = 0) →
      Real.sqrt ((sqnormQ e1 : ℚ) : ℝ) * Real.sqrt ((sqnormQ e2 : ℚ) : ℝ) ≠ 0 ∧
      calculate_cosine_similarity e1 e2 = ((dotQ e1 e2 : ℚ) : ℝ) /
        (Real.sqrt ((sqnormQ e1 : ℚ) : ℝ) * Real.sqrt ((sqnormQ e2 : ℚ) : ℝ))) := by
  refine ⟨?_, ?_, ?_⟩
  · intro h
    unfold calculate_cosine_similarity
    rw [if_pos h]
  · intro h
    have hz : Real.sqrt ((sqnormQ e1 : ℚ) : ℝ) = 0 := by
      rw [h]
      norm_num
    constructor
    · unfold calculate_cosine_similarity
      rw [if_pos (Or.inl hz)]
    · unfold calculate_cosine_similarity
      rw [if_pos (Or.inr hz)]
  · intro h
    push_neg at h
    refine ⟨mul_ne_zero h.1 h.2, ?_⟩
    unfold calculate_cosine_similarity
    rw [if_neg]
    push_neg
    exact h

/-- Witness for `cosine_zero_norm_policy`: similarity from the zero
vector `[0, 0]` is `0`. -/
theorem cosine_zero_norm_policy_witness :
    calculate_cosine_similarity [0, 0] [1, 2] = 0 :=
  ((cosine_zero_norm_policy [0, 0] [1, 2]).2.1 (by norm_num [sqnormQ, dotQ])).1

/-! ## C7 — `apply_filters` -/

/-- C7: `apply_filters` returns exactly the items passing every supplied
predicate (`passesFilters`: exact `jobType` match, case-insensitive
substring match on a present non-empty location, `fitScore` at or above
the threshold), i.e. it equals a single conjunctive filter; it is a
sublist of its input (relative order preserved); and on the spec's
scenario — a four-item list with two internships filtered by
`jobType = "internship"` — it returns exactly those two, in order. -/
theorem apply_filters_conjunctive (recs : List JobRecommendation) (f : RecFilters) :
    apply_filters recs f = recs.filter (passesFilters f) ∧
    (apply_filters recs f).Sublist recs ∧
    apply_filters sampleRecs ⟨some "internship", none, none⟩ =
      [sampleRecs.get ⟨0, by decide⟩, sampleRecs.get ⟨1, by decide⟩] := by
  have heq : apply_filters recs f = recs.filter (passesFilters f) := by
    unfold apply_filters passesFilters
    rcases f with ⟨jt, loc, m⟩
    cases jt <;> cases loc <;> cases m <;>
      simp [List.filter_filter, Bool.and_comm, Bool.and_assoc, Bool.and_left_comm]
  refine ⟨heq, ?_, by decide⟩
  rw [heq]
  exact List.filter_sublist recs

/-! ## C2 — search on an empty index -/

/-- Counterexample to C2 as stated: searching an empty index of
dimension 1 with the dimension-correct query `[1]` and `k = 1` succeeds
(no error) but returns one sentinel pair `(-1, no score)`, not an empty
sequence. -/
theorem search_empty_index_cex :
    search_similar (some ⟨1, []⟩) 1 [1] 1 = some [((-1 : Int), (none : Option ℚ))] ∧
    search_similar (some ⟨1, []⟩) 1 [1] 1 ≠ some ([] : List (Int × Option ℚ)) := by
  constructor
  · rfl
  · decide

/-- C2 (amended): for every query vector of the index's dimension, every
scale factor and every `k`, searching an index with zero stored vectors
does not report an error — it returns a result — but that result is the
length-`k` list of sentinel padding entries (slot `-1`, no score), not
the empty sequence: FAISS pads when fewer than `k` vectors are
stored. -/
theorem search_empty_index_padding (d : ℕ) (c : ℚ) (q : Vec) (k : ℕ)
    (hd : q.length = d) :
    search_similar (some ⟨d, []⟩) c q k =
      some (List.replicate k ((-1 : Int), (none : Option ℚ))) := by
  unfold search_similar
  dsimp only
  rw [if_pos hd]
  simp [faissTopK]

/-- Witness for `search_empty_index_padding`: a dim-2 empty index
queried with a dim-2 query and `k = 3`. -/
theorem search_empty_index_padding_witness :
    search_similar (some ⟨2, []⟩) 1 [1, 0] 3 =
      some (List.replicate 3 ((-1 : Int), (none : Option ℚ))) :=
  search_empty_index_padding 2 1 [1, 0] 3 (by decide)

/-! ## C3 — insert with a wrong-dimension vector -/

/-- Counterexample to C3 as stated: the dimension-mismatch rejection is
not reported as a distinguished `DimensionMismatch` error — the call
returns the same bare `False` as a disk-write failure on a
well-dimensioned batch, so the error kind is a generic failure. -/
theorem insert_dim_mismatch_generic_cex :
    (add_to_faiss_index (some ⟨2, []⟩) ⟨2, []⟩ true [] [[1, 2, 3]]).1 = false ∧
    (add_to_faiss_index (some ⟨2, []⟩) ⟨2, []⟩ false [1] [[3, 4]]).1 = false ∧
    (add_to_faiss_index (some ⟨2, []⟩) ⟨2, []⟩ true [] [[1, 2, 3]]).1 =
      (add_to_faiss_index (some ⟨2, []⟩) ⟨2, []⟩ false [1] [[3, 4]]).1 := by
  refine ⟨rfl, rfl, rfl⟩

/-- C3 (amended): an insert batch containing a vector whose length
differs from the index's dimension is rejected wholesale — the call
reports failure and both the in-memory index and the on-disk state are
completely unchanged (no truncation, no padding, nothing appended) — but
the failure is the generic boolean `False`, not a distinguished
`DimensionMismatch` error. -/
theorem insert_dim_mismatch_rejected (mem disk : FaissState) (diskOk : Bool)
    (cs : List ℚ) (batch : List Vec) (v : Vec)
    (hv : v ∈ batch) (hdim : v.length ≠ mem.dim) :
    add_to_faiss_index (some mem) disk diskOk cs batch = (false, some mem, disk) := by
  unfold add_to_faiss_index
  dsimp only
  rw [if_neg]
  intro hall
  exact hdim (by simpa using List.all_eq_true.mp hall v hv)

/-- Witness for `insert_dim_mismatch_rejected`: a 3-dimensional vector
offered to a 2-dimensional index is rejected with the state intact. -/
theorem insert_dim_mismatch_rejected_witness :
    add_to_faiss_index (some ⟨2, [[1, 0]]⟩) ⟨2, [[1, 0]]⟩ true [1] [[1, 2, 3]] =
      (false, some ⟨2, [[1, 0]]⟩, ⟨2, [[1, 0]]⟩) :=
  insert_dim_mismatch_rejected ⟨2, [[1, 0]]⟩ ⟨2, [[1, 0]]⟩ true [1] [[1, 2, 3]]
    [1, 2, 3] (by decide) (by decide)

/-! ## C4 — successful insert appends, normalizes and persists -/

/-- C4: for a batch of vectors of the index's dimension (with `cs` the
per-row inverse norms computed by `faiss.normalize_L2`), a successful
insert appends the L2-normalized rows to the in-memory index in batch
order and rewrites the persisted state to coincide with it; the new
count is `N + batch size`; each appended row is unit-length (squared
norm `1`; a zero row stays zero); and when the disk write fails the
call reports failure with the in-memory index already holding the
appended rows while the disk still holds the old state. -/
theorem insert_success_appends_and_persists (mem disk : FaissState)
    (cs : List ℚ) (batch : List Vec)
    (hdim : ∀ v ∈ batch, v.length = mem.dim)
    (hlen : cs.length = batch.length)
    (hnorm : ∀ p ∈ List.zip cs batch,
      sqnormQ p.2 ≠ 0 → p.1 * p.1 * sqnormQ p.2 = 1) :
    add_to_faiss_index (some mem) disk true cs batch =
      (true, some ⟨mem.dim, mem.vecs ++ List.zipWith normalizeWith cs batch⟩,
        ⟨mem.dim, mem.vecs ++ List.zipWith normalizeWith cs batch⟩) ∧
    (mem.vecs ++ List.zipWith normalizeWith cs batch).length =
      mem.vecs.length + batch.length ∧
    (∀ p ∈ List.zip cs batch,
      sqnormQ (normalizeWith p.1 p.2) = if sqnormQ p.2 = 0 then 0 else 1) ∧
    add_to_faiss_index (some mem) disk false cs batch =
      (false, some ⟨mem.dim, mem.vecs ++ List.zipWith normalizeWith cs batch⟩, disk) := by
  have hall : (batch.all fun v => decide (v.length = mem.dim)) = true := by
    rw [List.all_eq_true]
    intro v hv
    simpa using hdim v hv
  refine ⟨?_, ?_, ?_, ?_⟩
  · unfold add_to_faiss_index
    dsimp only
    rw [if_pos hall]
    rfl
  · rw [List.length_append, List.length_zipWith, hlen, min_self]
  · intro p hp
    by_cases hz : sqnormQ p.2 = 0
    · rw [if_pos hz, sqnormQ_normalizeWith, hz, mul_zero]
    · rw [if_neg hz, sqnormQ_normalizeWith]
      exact hnorm p hp hz
  · unfold add_to_faiss_index
    dsimp only
    rw [if_pos hall]
    rfl

/-- Witness for `insert_success_appends_and_persists`: inserting `[3, 4]`
(norm `5`, so scale `1/5`) into a 2-dimensional index holding one
vector. -/
theorem insert_success_appends_and_persists_witness :
    add_to_faiss_index (some ⟨2, [[1, 0]]⟩) ⟨2, [[1, 0]]⟩ true [1/5] [[3, 4]] =
      (true,
        some ⟨2, [[1, 0]] ++ List.zipWith normalizeWith [1/5] [[3, 4]]⟩,
        ⟨2, [[1, 0]] ++ List.zipWith normalizeWith [1/5] [[3, 4]]⟩) ∧
    sqnormQ (normalizeWith (1/5) [3, 4]) = 1 :=
  have h := insert_success_appends_and_persists ⟨2, [[1, 0]]⟩ ⟨2, [[1, 0]]⟩
    [1/5] [[3, 4]] (by decide) (by decide)
    (by
      intro p hp
      simp only [List.zip_cons_cons, List.zip_nil_right, List.mem_singleton] at hp
      subst hp
      intro h
      norm_num [sqnormQ, dotQ])
  ⟨h.1, by
    have h3 := h.2.2.1 (1/5, [3, 4]) (by simp)
    rw [if_neg (by norm_num [sqnormQ, dotQ])] at h3
    exact h3⟩

/-! ## C5 — `generate_embeddings` is all-or-nothing -/

/-- C5: for a non-empty batch of texts, `generate_embeddings` either
fails with no result at all (model unavailable or encoding raised) or
returns exactly one vector per input text, in input order, all of the
model's dimension `D` — never a partial list and never substituted
vectors. -/
theorem embed_all_or_nothing (model : Option (String → Vec)) (encodeOk : Bool)
    (texts : List String) (D : ℕ)
    (hD : ∀ m, model = some m → ∀ s, (m s).length = D)
    (hne : texts ≠ []) :
    generate_embeddings model encodeOk texts = none ∨
    ∃ m, model = some m ∧
      generate_embeddings model encodeOk texts = some (texts.map m) ∧
      (texts.map m).length = texts.length ∧
      (∀ i (hi : i < texts.length),
        (texts.map m).get ⟨i, by simpa using hi⟩ = m (texts.get ⟨i, hi⟩)) ∧
      (∀ v ∈ texts.map m, v.length = D) := by
  cases model with
  | none => exact Or.inl rfl
  | some m =>
    cases encodeOk with
    | false => exact Or.inl rfl
    | true =>
      refine Or.inr ⟨m, rfl, rfl, List.length_map _ _, ?_, ?_⟩
      · intro i hi
        simp
      · intro v hv
        obtain ⟨s, _, rfl⟩ := List.mem_map.mp hv
        exact hD m rfl s

/-- Witness for `embed_all_or_nothing` with a concrete two-text batch and
a constant 2-dimensional encoder. -/
theorem embed_all_or_nothing_witness :
    generate_embeddings (some (fun _ => ([0, 0] : Vec))) true ["a", "b"] = none ∨
    ∃ m, (some (fun _ => ([0, 0] : Vec))) = some m ∧
      generate_embeddings (some (fun _ => ([0, 0] : Vec))) true ["a", "b"] =
        some (["a", "b"].map m) ∧
      (["a", "b"].map m).length = ["a", "b"].length ∧
      (∀ i (hi : i < (["a", "b"] : List String).length),
        (["a", "b"].map m).get ⟨i, by simpa using hi⟩ =
          m ((["a", "b"] : List String).get ⟨i, hi⟩)) ∧
      (∀ v ∈ ["a", "b"].map m, v.length = 2) :=
  embed_all_or_nothing (some (fun _ => ([0, 0] : Vec))) true ["a", "b"] 2
    (by
      intro m hm s
      injection hm with h
      subst h
      rfl)
    (by decide)

/-! ## C9 — the similar-jobs lookup excludes the reference job -/

/-- C9: no entry of the similar-jobs result carries the reference job's
id — the loop skips every database row whose id equals it, for any
database, scoring outcome and limit. -/
theorem similar_jobs_exclude_reference (db : List JobListing) (ref : JobListing)
    (score : JobListing → Option ℚ) (limit : ℕ) (sj : SimilarJob)
    (hsj : sj ∈ find_similar_jobs_by_embedding db ref score limit) :
    sj.jobId ≠ ref.id := by
  unfold find_similar_jobs_by_embedding at hsj
  have h1 := List.mem_of_mem_take hsj
  rw [List.mem_insertionSort] at h1
  obtain ⟨j, hj, hrep⟩ := List.mem_filterMap.mp h1
  by_cases hid : j.id = ref.id
  · rw [if_pos hid] at hrep
    exact absurd hrep (by simp)
  · rw [if_neg hid] at hrep
    obtain ⟨s, _, rfl⟩ := Option.map_eq_some'.mp hrep
    exact hid

/-- Witness for `similar_jobs_exclude_reference` on a concrete two-job
database whose first entry is the reference. -/
theorem similar_jobs_exclude_reference_witness :
    (⟨"j2", "b", "cB", mkRat 0 1, "Same job type, Low similarity",
        some "y", some "ft"⟩ : SimilarJob).jobId ≠ "j1" :=
  similar_jobs_exclude_reference
    [⟨"j1", "a", "cA", [], "x", "ft", "dA"⟩, ⟨"j2", "b", "cB", [], "y", "ft", "dB"⟩]
    ⟨"j1", "a", "cA", [], "x", "ft", "dA"⟩ (fun _ => some (mkRat 0 1)) 1
    ⟨"j2", "b", "cB", mkRat 0 1, "Same job type, Low similarity", some "y", some "ft"⟩
    (by decide)

/-! ## C10 — recommendations truncate before scoring, then rank -/

theorem filter_key_orderedInsert {α : Type} (f : α → ℚ) (q : ℚ) (a : α)
    (l : List α) :
    (List.orderedInsert (keyDesc f) a l).filter (fun x => decide (f x = q)) =
      if f a = q then a :: l.filter (fun x => decide (f x = q))
      else l.filter (fun x => decide (f x = q)) := by
  induction l with
  | nil =>
    by_cases hq : f a = q <;> simp [List.orderedInsert, List.filter, hq]
  | cons b bs ih =>
    show (if keyDesc f a b then a :: b :: bs
        else b :: List.orderedInsert (keyDesc f) a bs).filter
          (fun x => decide (f x = q)) = _
    by_cases hr : keyDesc f a b
    · rw [if_pos hr]
      by_cases hq : f a = q <;> simp [List.filter_cons, hq]
    · rw [if_neg hr]
      have hab : f a < f b := not_le.mp hr
      by_cases hq : f a = q
      · have hbq : f b ≠ q := ne_of_gt (hq ▸ hab)
        rw [if_pos hq]
        simp [List.filter_cons, hbq, ih, hq]
      · rw [if_neg hq]
        simp [List.filter_cons, ih, hq]

theorem filter_key_insertionSort {α : Type} (f : α → ℚ) (q : ℚ) (l : List α) :
    (List.insertionSort (keyDesc f) l).filter (fun x => decide (f x = q)) =
      l.filter (fun x => decide (f x = q)) := by
  induction l with
  | nil => rfl
  | cons a l ih =>
    show (List.orderedInsert (keyDesc f) a
        (List.insertionSort (keyDesc f) l)).filter (fun x => decide (f x = q)) = _
    rw [filter_key_orderedInsert]
    by_cases hq : f a = q <;> simp [List.filter_cons, hq, ih]

/-- C10: the recommendation generator truncates the job list to `limit`
entries **before** scoring — the result is a permutation of the scored
`jobs.take limit`, so a job at position `≥ limit` is never recommended
no matter how well it fits — has length `min limit N` (hence at most
`limit`), and is sorted descending by `fitScore`, stably: for every
score, the entries carrying that score appear in their pre-sort
(database) order. -/
theorem recommendations_truncate_then_rank (jobs : List JobListing)
    (skills : Finset String) (limit : ℕ) :
    (generate_mock_recommendations jobs skills limit).length = min limit jobs.length ∧
    (generate_mock_recommendations jobs skills limit).length ≤ limit ∧
    List.Sorted (keyDesc JobRecommendation.fitScore)
      (generate_mock_recommendations jobs skills limit) ∧
    (generate_mock_recommendations jobs skills limit).Perm
      ((jobs.take limit).map (mkRecommendation skills)) ∧
    (∀ q : ℚ,
      (generate_mock_recommendations jobs skills limit).filter
          (fun r => decide (r.fitScore = q)) =
        ((jobs.take limit).map (mkRecommendation skills)).filter
          (fun r => decide (r.fitScore = q))) := by
  refine ⟨?_, ?_, ?_, ?_, ?_⟩
  · unfold generate_mock_recommendations
    rw [List.length_insertionSort, List.length_map, List.length_take]
  · unfold generate_mock_recommendations
    rw [List.length_insertionSort, List.length_map, List.length_take]
    exact min_le_left _ _
  · exact List.sorted_insertionSort _ _
  · exact List.perm_insertionSort _ _
  · intro q
    exact filter_key_insertionSort JobRecommendation.fitScore q _

/-! ## C1 — shape of `search` results -/

theorem faissTopK_top_length (xs : List Vec) (q : Vec) (k : ℕ) :
    ((List.insertionSort rankDesc ((List.range xs.length).zip
      (xs.map (fun v => dotQ q v)))).take k).length = min k xs.length := by
  rw [List.length_take, List.length_insertionSort, List.length_zip,
    List.length_range, List.length_map, min_self]

theorem faissTopK_eq (xs : List Vec) (q : Vec) (k : ℕ) :
    faissTopK xs q k =
      ((List.insertionSort rankDesc ((List.range xs.length).zip
        (xs.map (fun v => dotQ q v)))).take k).map
          (fun p => ((p.1 : Int), some p.2)) ++
      List.replicate (k - min k xs.length) ((-1 : Int), (none : Option ℚ)) := by
  simp only [faissTopK]
  rw [faissTopK_top_length]

theorem faissTopK_length (xs : List Vec) (q : Vec) (k : ℕ) :
    (faissTopK xs q k).length = k := by
  rw [faissTopK_eq, List.length_append, List.length_map, faissTopK_top_length,
    List.length_replicate]
  omega

theorem faissTopK_take (xs : List Vec) (q : Vec) (k : ℕ) :
    (faissTopK xs q k).take (min k xs.length) =
      ((List.insertionSort rankDesc ((List.range xs.length).zip
        (xs.map (fun v => dotQ q v)))).take k).map
          (fun p => ((p.1 : Int), some p.2)) := by
  rw [faissTopK_eq]
  exact List.take_left' (by rw [List.length_map, faissTopK_top_length])

theorem faissTopK_drop (xs : List Vec) (q : Vec) (k : ℕ) :
    (faissTopK xs q k).drop (min k xs.length) =
      List.replicate (k - min k xs.length) ((-1 : Int), (none : Option ℚ)) := by
  rw [faissTopK_eq]
  exact List.drop_left' (by rw [List.length_map, faissTopK_top_length])

theorem scored_map_fst (xs : List Vec) (q : Vec) :
    ((List.range xs.length).zip (xs.map (fun v => dotQ q v))).map Prod.fst =
      List.range xs.length :=
  List.map_fst_zip _ _ (by rw [List.length_range, List.length_map])

theorem topMapped_nodup (xs : List Vec) (q : Vec) (k : ℕ) :
    ((((List.insertionSort rankDesc ((List.range xs.length).zip
      (xs.map (fun v => dotQ q v)))).take k).map
        (fun p => ((p.1 : Int), some p.2))).map Prod.fst).Nodup := by
  have h1 : ((List.insertionSort rankDesc ((List.range xs.length).zip
      (xs.map (fun v => dotQ q v)))).map Prod.fst).Nodup := by
    have hp := (List.perm_insertionSort rankDesc
      ((List.range xs.length).zip (xs.map (fun v => dotQ q v)))).map Prod.fst
    rw [scored_map_fst] at hp
    exact hp.nodup_iff.mpr (List.nodup_range xs.length)
  have h2 : (((List.insertionSort rankDesc ((List.range xs.length).zip
      (xs.map (fun v => dotQ q v)))).take k).map Prod.fst).Nodup :=
    List.Nodup.sublist (List.Sublist.map Prod.fst (List.take_sublist k _)) h1
  have h3 : ((((List.insertionSort rankDesc ((List.range xs.length).zip
      (xs.map (fun v => dotQ q v)))).take k).map
        (fun p => ((p.1 : Int), some p.2))).map Prod.fst) =
      (((List.insertionSort rankDesc ((List.range xs.length).zip
        (xs.map (fun v => dotQ q v)))).take k).map Prod.fst).map
          (fun i : ℕ => (i : Int)) := by
    simp [List.map_map]
    rfl
  rw [h3]
  exact h2.map (fun a b hab => by exact_mod_cast hab)

theorem topMapped_bounds (xs : List Vec) (q : Vec) (k : ℕ) :
    ∀ p ∈ ((List.insertionSort rankDesc ((List.range xs.length).zip
      (xs.map (fun v => dotQ q v)))).take k).map
        (fun p => ((p.1 : Int), some p.2)),
      0 ≤ p.1 ∧ p.1 < (xs.length : Int) ∧ p.2 ≠ none := by
  intro p hp
  obtain ⟨p0, hp0, rfl⟩ := List.mem_map.mp hp
  have hmem : p0 ∈ (List.range xs.length).zip (xs.map (fun v => dotQ q v)) :=
    (List.mem_insertionSort rankDesc).mp (List.mem_of_mem_take hp0)
  have hfst : p0.1 ∈ List.range xs.length := by
    have := List.mem_map_of_mem Prod.fst hmem
    rwa [scored_map_fst] at this
  have hlt := List.mem_range.mp hfst
  refine ⟨Int.natCast_nonneg p0.1, ?_, by simp⟩
  show (p0.1 : Int) < (xs.length : Int)
  exact_mod_cast hlt

theorem topMapped_sorted (xs : List Vec) (q : Vec) (k : ℕ) :
    List.Sorted (fun a b : Int × Option ℚ => b.2.getD 0 ≤ a.2.getD 0)
      (((List.insertionSort rankDesc ((List.range xs.length).zip
        (xs.map (fun v => dotQ q v)))).take k).map
          (fun p => ((p.1 : Int), some p.2))) := by
  have hs : List.Sorted rankDesc (List.insertionSort rankDesc
      ((List.range xs.length).zip (xs.map (fun v => dotQ q v)))) :=
    List.sorted_insertionSort rankDesc _
  have hst := List.Pairwise.sublist (List.take_sublist k _) hs
  rw [List.Sorted, List.pairwise_map]
  refine hst.imp ?_
  intro a b hab
  rcases hab with h | ⟨h, _⟩
  · exact le_of_lt h
  · exact le_of_eq h.symm

/-- Counterexample to C1 as stated: an index holding `N = 1` vector,
queried with `k = 2`, returns two pairs — the valid one and a sentinel
`(-1, no score)` — not `min(k, N) = 1` pairs. -/
theorem search_topk_len_cex :
    search_similar (some ⟨1, [[1]]⟩) 1 [1] 2 =
      some [((0 : Int), some (1 : ℚ)), ((-1 : Int), (none : Option ℚ))] ∧
    ([((0 : Int), some (1 : ℚ)), ((-1 : Int), (none : Option ℚ))].length ≠ min 2 1) := by
  constructor
  · show some (faissTopK [[1]] (normalizeWith 1 [1]) 2) = _
    rw [faissTopK_eq]
    norm_num [normalizeWith, dotQ, List.insertionSort, List.orderedInsert]
  · decide

/-- C1 (amended): on an index holding `N ≥ 1` vectors, `search` with a
positive `k` and a query vector of the index's dimension succeeds and
returns exactly `k` (slot, score) pairs (FAISS pads, it does not
truncate to `min(k, N)`): the first `min(k, N)` of them are the valid
results — distinct slots, each in `[0, N)`, each with a score, sorted
descending by score — and the remaining `k - min(k, N)` are the
sentinel padding `(-1, no score)`. -/
theorem search_topk_padded (st : FaissState) (c : ℚ) (q : Vec) (k : ℕ)
    (hd : q.length = st.dim) (hN : 1 ≤ st.vecs.length) (hk : 1 ≤ k) :
    ∃ res, search_similar (some st) c q k = some res ∧
      res.length = k ∧
      ((res.take (min k st.vecs.length)).map Prod.fst).Nodup ∧
      (∀ p ∈ res.take (min k st.vecs.length),
        0 ≤ p.1 ∧ p.1 < (st.vecs.length : Int) ∧ p.2 ≠ none) ∧
      List.Sorted (fun a b : Int × Option ℚ => b.2.getD 0 ≤ a.2.getD 0)
        (res.take (min k st.vecs.length)) ∧
      res.drop (min k st.vecs.length) =
        List.replicate (k - min k st.vecs.length) ((-1 : Int), (none : Option ℚ)) := by
  have hres : search_similar (some st) c q k =
      some (faissTopK st.vecs (normalizeWith c q) k) := by
    unfold search_similar
    dsimp only
    rw [if_pos hd]
  refine ⟨faissTopK st.vecs (normalizeWith c q) k, hres,
    faissTopK_length st.vecs (normalizeWith c q) k, ?_, ?_, ?_, ?_⟩
  · rw [faissTopK_take]
    exact topMapped_nodup st.vecs (normalizeWith c q) k
  · rw [faissTopK_take]
    exact topMapped_bounds st.vecs (normalizeWith c q) k
  · rw [faissTopK_take]
    exact topMapped_sorted st.vecs (normalizeWith c q) k
  · exact faissTopK_drop st.vecs (normalizeWith c q) k

/-- Witness for `search_topk_padded`: a 2-vector index queried with
`k = 3`. -/
theorem search_topk_padded_witness :
    ∃ res, search_similar (some ⟨2, [[1, 0], [0, 1]]⟩) 1 [1, 0] 3 = some res ∧
      res.length = 3 ∧
      ((res.take (min 3 (2 : ℕ))).map Prod.fst).Nodup ∧
      (∀ p ∈ res.take (min 3 (2 : ℕ)),
        0 ≤ p.1 ∧ p.1 < ((2 : ℕ) : Int) ∧ p.2 ≠ none) ∧
      List.Sorted (fun a b : Int × Option ℚ => b.2.getD 0 ≤ a.2.getD 0)
        (res.take (min 3 (2 : ℕ))) ∧
      res.drop (min 3 (2 : ℕ)) =
        List.replicate (3 - min 3 (2 : ℕ)) ((-1 : Int), (none : Option ℚ)) :=
  search_topk_padded ⟨2, [[1, 0], [0, 1]]⟩ 1 [1, 0] 3 (by decide) (by decide) (by decide)

end AiService
